import Mathlib

/-!
Verification of the two desktop demo programs of this repository:
`Tela_grafica_sensor_luz.py` (webcam-lux radar) and
`Tela_grafica_temperatura.py` (temperature dashboard).

Python floats are modelled as exact rationals (ℚ), except for the
trigonometric projection which is modelled over the reals (ℝ).
-/

set_option maxRecDepth 100000

namespace Programas

/-! ## Rolling buffer (`collections.deque` with `maxlen`)

The temperature program stores its history in `deque(maxlen=MAX_PONTOS)`:
appending to a full deque evicts the oldest element. -/

/-- One `deque.append` on a deque with maximum length `N`: the new element is
appended and, when the capacity is exceeded, the oldest elements are dropped. -/
def deque_append {α : Type} (N : Nat) (buf : List α) (x : α) : List α :=
  let b := buf ++ [x]
  b.drop (b.length - N)

/-- `MAX_PONTOS = 120` — capacity of the temperature history
(`Tela_grafica_temperatura.py`, line 24). -/
def MAX_PONTOS : Nat := 120

/-- Python's round-half-to-even on a rational, as used by `round(x, ndigits)`. -/
def round_half_even (q : ℚ) : ℤ :=
  if q - Int.floor q < 1 / 2 then Int.floor q
  else if 1 / 2 < q - Int.floor q then Int.floor q + 1
  else if Int.floor q % 2 = 0 then Int.floor q else Int.floor q + 1

/-- `App.ler_sensor` (`Tela_grafica_temperatura.py`, lines 74–82): the random
draw `random.uniform(24, 30)` is taken as the input `u`; the method returns
`round(u, 1)`, i.e. `u` rounded half-to-even at one decimal place. -/
def ler_sensor (u : ℚ) : ℚ :=
  (round_half_even (10 * u) : ℚ) / 10

/-- One iteration of `App.aquisicao` (`Tela_grafica_temperatura.py`,
lines 64–71) restricted to the `temps` deque: read the sensor on the random
draw `u` and append the reading to the history deque. -/
def aquisicao_step (temps : List ℚ) (u : ℚ) : List ℚ :=
  deque_append MAX_PONTOS temps (ler_sensor u)

/-! ### Helper lemmas about the deque -/

/-- Folding `deque_append N` keeps exactly the most recent `N` elements:
starting from a buffer that fits, the result is the suffix of the
concatenated stream. -/
theorem foldl_deque_eq_drop {α : Type} (N : Nat) :
    ∀ (xs buf : List α), buf.length ≤ N →
      List.foldl (deque_append N) buf xs
        = (buf ++ xs).drop (buf.length + xs.length - N) := by
  intro xs
  induction xs with
  | nil =>
      intro buf hb
      simp [Nat.sub_eq_zero_of_le, hb]
  | cons x rest ih =>
      intro buf hb
      have hstep : deque_append N buf x
          = (buf ++ [x]).drop ((buf ++ [x]).length - N) := rfl
      have hlenB : (buf ++ [x]).length = buf.length + 1 := by simp
      have hd_le : (buf ++ [x]).length - N ≤ (buf ++ [x]).length :=
        Nat.sub_le _ _
      have hlen_step : (deque_append N buf x).length ≤ N := by
        rw [hstep, List.length_drop]
        omega
      have hIH := ih (deque_append N buf x) hlen_step
      rw [List.foldl_cons, hIH, hstep]
      rw [List.length_drop]
      have hsplit :
          ((buf ++ [x]).drop ((buf ++ [x]).length - N) ++ rest)
            = ((buf ++ [x]) ++ rest).drop ((buf ++ [x]).length - N) := by
        rw [List.drop_append_of_le_length hd_le]
      rw [hsplit, List.drop_drop]
      have harr : ((buf ++ [x]) ++ rest) = buf ++ x :: rest := by simp
      rw [harr]
      congr 1
      simp only [hlenB, List.length_cons]
      omega

/-- C1: For every buffer capacity `N` and every sequence of `N + k` insertions
(`k ≥ 0`) into the rolling buffer, the buffer afterwards contains exactly the
last `N` inserted values, in insertion order. -/
theorem rolling_buffer_retains_last {α : Type} (N k : Nat) (xs : List α)
    (h : xs.length = N + k) :
    List.foldl (deque_append N) [] xs = xs.drop k := by
  have hmain := foldl_deque_eq_drop N xs [] (by simp)
  simpa [h] using hmain

/-- C1 witness: the temperature buffer of capacity 120, after receiving
samples 1..150 in order, contains exactly samples 31..150 in order. -/
theorem rolling_buffer_retains_last_witness :
    (List.range' 1 150).length = 120 + 30 ∧
      List.foldl (deque_append 120) [] (List.range' 1 150) = List.range' 31 120 :=
  ⟨by decide,
   (rolling_buffer_retains_last 120 30 (List.range' 1 150) (by decide)).trans
     (by decide)⟩

/-! ### Bounds for the rounding used by `ler_sensor` -/

/-- Round-half-to-even never rounds below the floor. -/
theorem floor_le_round_half_even (q : ℚ) : Int.floor q ≤ round_half_even q := by
  unfold round_half_even
  split
  · exact le_refl _
  · split
    · omega
    · split
      · omega
      · omega

/-- Round-half-to-even never rounds above the floor plus one. -/
theorem round_half_even_le_floor_add_one (q : ℚ) :
    round_half_even q ≤ Int.floor q + 1 := by
  unfold round_half_even
  split
  · omega
  · split
    · omega
    · split
      · omega
      · omega

/-- On input that is exactly an integer, round-half-to-even is the identity. -/
theorem round_half_even_intCast (z : ℤ) : round_half_even (z : ℚ) = z := by
  unfold round_half_even
  rw [Int.floor_intCast]
  have hc : (z : ℚ) - (z : ℚ) < 1 / 2 := by norm_num
  rw [if_pos hc]

/-- A sensor draw in `[24, 30]` is rounded into `[24, 30]`. -/
theorem ler_sensor_mem_Icc (u : ℚ) (h24 : 24 ≤ u) (h30 : u ≤ 30) :
    24 ≤ ler_sensor u ∧ ler_sensor u ≤ 30 := by
  have h240 : (240 : ℚ) ≤ 10 * u := by linarith
  have h300 : 10 * u ≤ (300 : ℚ) := by linarith
  have hfl_lo : (240 : ℤ) ≤ Int.floor (10 * u) := by
    rw [Int.le_floor]
    exact_mod_cast h240
  have hfl_up : Int.floor (10 * u) ≤ 300 := by
    by_contra hcon
    push_neg at hcon
    have hcast : ((301 : ℤ) : ℚ) ≤ 10 * u := Int.le_floor.mp (by omega)
    push_cast at hcast
    linarith
  have hlo : (240 : ℤ) ≤ round_half_even (10 * u) :=
    le_trans hfl_lo (floor_le_round_half_even _)
  have hup : round_half_even (10 * u) ≤ 300 := by
    rcases lt_or_eq_of_le hfl_up with hlt | heq
    · have := round_half_even_le_floor_add_one (10 * u)
      omega
    · have hq : (10 * u : ℚ) = ((300 : ℤ) : ℚ) := by
        have hle : ((300 : ℤ) : ℚ) ≤ 10 * u := by
          rw [← heq]
          exact Int.floor_le _
        have hge : (10 * u : ℚ) ≤ ((300 : ℤ) : ℚ) := by exact_mod_cast h300
        linarith
      rw [hq, round_half_even_intCast]
  constructor
  · unfold ler_sensor
    have : ((240 : ℤ) : ℚ) ≤ (round_half_even (10 * u) : ℚ) := by
      exact_mod_cast hlo
    push_cast at this ⊢
    linarith
  · unfold ler_sensor
    have : (round_half_even (10 * u) : ℚ) ≤ ((300 : ℤ) : ℚ) := by
      exact_mod_cast hup
    push_cast at this ⊢
    linarith

/-! ## Radar program (`Tela_grafica_sensor_luz.py`)

Layout constants (lines 36–39) and the mutable state of `RadarLuxCam`:
the 360-slot readings buffer, the beam angle, the running flag, and the three
adjustable Tk variables (amplitude, sweep, interval). -/

/-- `SIZE = 480` — side of the square canvas, in pixels. -/
def SIZE : Nat := 480

/-- `MARGEM = 12` — margin to the outer circle, in pixels. -/
def MARGEM : Nat := 12

/-- Outer radius of the radar: `(SIZE // 2) - MARGEM`, the source's fixed
outer-radius constant (line 38). -/
def RAIO : Nat := SIZE / 2 - MARGEM

/-- The mutable state of a `RadarLuxCam` window: the fields set up in
`__init__` (lines 48–55), with the three Tk parameter variables inlined. -/
structure RadarState where
  readings : List ℚ
  angle : Nat
  running : Bool
  amplitude : ℚ
  sweep : Nat
  interval : Nat
deriving DecidableEq

/-- The state after `RadarLuxCam.__init__`: a 360-slot all-zero buffer,
angle 0, stopped, with default parameters amplitude 1000, sweep 2,
interval 60 ms. -/
def init_state : RadarState :=
  { readings := List.replicate 360 0
    angle := 0
    running := false
    amplitude := 1000
    sweep := 2
    interval := 60 }

/-- `RadarLuxCam.reset` (lines 124–127): refill the buffer with zeros, delete
the dynamic canvas items (not modelled), and put the angle back to 0. -/
def reset (s : RadarState) : RadarState :=
  { s with readings := List.replicate 360 0, angle := 0 }

/-- `RadarLuxCam.start` (lines 116–119): when stopped, set `running` and
schedule the first timer callback. The boolean result records whether a
callback was scheduled by this invocation. -/
def start (s : RadarState) : RadarState × Bool :=
  if s.running then (s, false) else ({ s with running := true }, true)

/-- `RadarLuxCam.stop` (lines 121–122): clear the running flag. -/
def stop (s : RadarState) : RadarState :=
  { s with running := false }

/-- `RadarLuxCam._read_lux_from_camera` (lines 105–113). The camera read is
modelled by an `Option`: `none` when `cap.read()` fails (`ret` false), and
`some m` with `m` the mean grayscale intensity of the frame otherwise.
On failure the method returns `0.0`; on success
`lux = (mean_intensity / 255.0) * amp`. -/
def read_lux (amp : ℚ) (frame : Option ℚ) : ℚ :=
  match frame with
  | none => 0
  | some mean_intensity => mean_intensity / 255 * amp

/-- `RadarLuxCam._update` (lines 134–150): when running, read one lux value,
store it at the current angle, redraw (not modelled), and advance the angle
by the sweep modulo 360. When stopped, do nothing. -/
def update (frame : Option ℚ) (s : RadarState) : RadarState :=
  if s.running then
    { s with
        readings := s.readings.set s.angle (read_lux s.amplitude frame)
        angle := (s.angle + s.sweep) % 360 }
  else s

/-- Python's `int()` on a rational: truncation toward zero. -/
def int_trunc (q : ℚ) : ℤ :=
  if 0 ≤ q then Int.floor q else Int.ceil q

/-- The green component computed by `RadarLuxCam._lux_to_color`
(lines 153–157): `g = int(50 + 205 * lux / amp)` clamped by
`max(0, min(255, g))`. -/
def lux_to_color_g (amp lux : ℚ) : ℤ :=
  max 0 (min 255 (int_trunc (50 + 205 * lux / amp)))

/-- `math.radians` applied to a whole-degree angle. -/
noncomputable def radians (deg : Nat) : ℝ :=
  (deg : ℝ) * Real.pi / 180

/-- The point plotted by `RadarLuxCam._draw_points` (lines 159–170) for the
reading `lux` stored at the angle `ang`: radius `r = (lux / amp) * RAIO`,
plotted at `(cx + r·cos θ, cy − r·sin θ)` with `cx = cy = SIZE // 2`. -/
noncomputable def draw_point (amp lux : ℝ) (ang : Nat) : ℝ × ℝ :=
  ((( SIZE / 2 : Nat) : ℝ) + lux / amp * ( RAIO : ℝ) * Real.cos (radians ang),
   (( SIZE / 2 : Nat) : ℝ) - lux / amp * ( RAIO : ℝ) * Real.sin (radians ang))

/-- A sample radar state (running, with a populated buffer) used to
instantiate the theorems below at a concrete input. -/
def sample_state : RadarState :=
  { readings := List.replicate 360 5
    angle := 7
    running := true
    amplitude := 1000
    sweep := 3
    interval := 60 }

/-- C2: for every stored reading of magnitude `lux` at angle `ang` and every
amplitude `amp > 0`, the rendered point lies on the circle of radius
`r = (lux / amp) * RAIO` centred at `(SIZE // 2, SIZE // 2)`, at Cartesian
coordinates `(cx + r·cos ang, cy − r·sin ang)`. -/
theorem draw_point_on_circle (amp lux : ℝ) (ang : Nat) (hA : 0 < amp) :
    ((draw_point amp lux ang).1 - (( SIZE / 2 : Nat) : ℝ)) ^ 2
        + ((draw_point amp lux ang).2 - (( SIZE / 2 : Nat) : ℝ)) ^ 2
      = (lux / amp * ( RAIO : ℝ)) ^ 2 ∧
    (draw_point amp lux ang).1
      = (( SIZE / 2 : Nat) : ℝ) + lux / amp * ( RAIO : ℝ) * Real.cos (radians ang) ∧
    (draw_point amp lux ang).2
      = (( SIZE / 2 : Nat) : ℝ) - lux / amp * ( RAIO : ℝ) * Real.sin (radians ang) := by
  refine ⟨?_, rfl, rfl⟩
  simp only [draw_point]
  linear_combination (lux / amp * ( RAIO : ℝ)) ^ 2
    * Real.sin_sq_add_cos_sq (radians ang)

/-- C2 witness: the projection property at amplitude 1000, magnitude 500,
angle 90°. -/
theorem draw_point_on_circle_witness :
    (0 : ℝ) < 1000 ∧
      (((draw_point 1000 500 90).1 - (( SIZE / 2 : Nat) : ℝ)) ^ 2
          + ((draw_point 1000 500 90).2 - (( SIZE / 2 : Nat) : ℝ)) ^ 2
        = ((500 : ℝ) / 1000 * ( RAIO : ℝ)) ^ 2 ∧
      (draw_point 1000 500 90).1
        = (( SIZE / 2 : Nat) : ℝ) + (500 : ℝ) / 1000 * ( RAIO : ℝ) * Real.cos (radians 90) ∧
      (draw_point 1000 500 90).2
        = (( SIZE / 2 : Nat) : ℝ) - (500 : ℝ) / 1000 * ( RAIO : ℝ) * Real.sin (radians 90)) :=
  ⟨by norm_num, draw_point_on_circle 1000 500 90 (by norm_num)⟩

/-- C3: from every prior radar state, `reset` leaves the readings buffer
all-zero (360 slots) and the angle cursor at 0. (The temperature program
defines no reset action, so the temperature half of the claim is vacuous.) -/
theorem reset_zeroes_buffer_and_angle (s : RadarState) (i : Nat)
    (hi : i < 360) :
    (reset s).readings.getD i 37 = 0 ∧
      (reset s).readings.length = 360 ∧ (reset s).angle = 0 := by
  refine ⟨?_, by simp [reset], rfl⟩
  have hlen : i < (List.replicate 360 (0 : ℚ)).length := by simpa using hi
  show (List.replicate 360 (0 : ℚ)).getD i 37 = 0
  rw [List.getD_eq_getElem _ _ hlen]
  exact List.getElem_replicate _ _

/-- C3 witness: reset of the sample state, inspected at slot 123. -/
theorem reset_zeroes_buffer_and_angle_witness :
    (123 : Nat) < 360 ∧
      ((reset sample_state).readings.getD 123 37 = 0 ∧
        (reset sample_state).readings.length = 360 ∧
        (reset sample_state).angle = 0) :=
  ⟨by decide, reset_zeroes_buffer_and_angle sample_state 123 (by decide)⟩

/-- C4: for every amplitude `A > 0` the green component of
`_lux_to_color` is monotonic non-decreasing in the magnitude, and for every
magnitude `m ≥ 0` (including `m > A`) it is clamped into `[0, 255]`. -/
theorem lux_color_monotone_clamped (A m1 m2 m : ℚ)
    (hA : 0 < A) (h1 : 0 ≤ m1) (h12 : m1 ≤ m2) (hm : 0 ≤ m) :
    lux_to_color_g A m1 ≤ lux_to_color_g A m2 ∧
      0 ≤ lux_to_color_g A m ∧ lux_to_color_g A m ≤ 255 := by
  refine ⟨?_, le_max_left _ _, max_le (by norm_num) (min_le_left _ _)⟩
  have harg : 50 + 205 * m1 / A ≤ 50 + 205 * m2 / A := by
    have hmul : 205 * m1 ≤ 205 * m2 := by linarith
    have hdiv := (div_le_div_iff_of_pos_right hA).mpr hmul
    linarith
  have h1nn : (0 : ℚ) ≤ 50 + 205 * m1 / A := by
    have : (0 : ℚ) ≤ 205 * m1 / A := div_nonneg (by linarith) (le_of_lt hA)
    linarith
  have h2nn : (0 : ℚ) ≤ 50 + 205 * m2 / A := le_trans h1nn harg
  have htr : int_trunc (50 + 205 * m1 / A) ≤ int_trunc (50 + 205 * m2 / A) := by
    unfold int_trunc
    rw [if_pos h1nn, if_pos h2nn]
    exact Int.floor_le_floor harg
  exact max_le_max (le_refl 0) (min_le_min (le_refl 255) htr)

/-- C4 witness: amplitude 1000, magnitudes 250 ≤ 800 for monotonicity, and
the out-of-range magnitude 5000 for clamping. -/
theorem lux_color_monotone_clamped_witness :
    ((0 : ℚ) < 1000 ∧ (0 : ℚ) ≤ 250 ∧ (250 : ℚ) ≤ 800 ∧ (0 : ℚ) ≤ 5000) ∧
      (lux_to_color_g 1000 250 ≤ lux_to_color_g 1000 800 ∧
        0 ≤ lux_to_color_g 1000 5000 ∧ lux_to_color_g 1000 5000 ≤ 255) :=
  ⟨by norm_num,
   lux_color_monotone_clamped 1000 250 800 5000 (by norm_num) (by norm_num)
     (by norm_num) (by norm_num)⟩

/-- C5: on a tick whose camera read fails, `_read_lux_from_camera` returns
`0.0` instead of propagating an error, and that zero is what `_update` stores
in the buffer slot of the current angle. -/
theorem failed_read_stores_zero (s : RadarState)
    (hr : s.running = true) (ha : s.angle < s.readings.length) :
    read_lux s.amplitude none = 0 ∧
      (update none s).readings.getD s.angle 37 = 0 := by
  refine ⟨rfl, ?_⟩
  unfold update
  rw [hr]
  have hlen : s.angle < (s.readings.set s.angle (read_lux s.amplitude none)).length := by
    simpa [List.length_set] using ha
  simp only [if_pos]
  rw [List.getD_eq_getElem _ _ hlen]
  simp [read_lux]

/-- C5 witness: a failing read on the running sample state stores `0` at the
current angle (slot 7). -/
theorem failed_read_stores_zero_witness :
    (sample_state.running = true ∧
        sample_state.angle < sample_state.readings.length) ∧
      (read_lux sample_state.amplitude none = 0 ∧
        (update none sample_state).readings.getD sample_state.angle 37 = 0) :=
  ⟨⟨rfl, by decide⟩, failed_read_stores_zero sample_state rfl (by decide)⟩

/-- C6: the lux conversion computes `lux = (mean_intensity / 255) * amp`;
in particular, amplitude 1000 with mean intensity 128 yields exactly
`25600 / 51 ≈ 502`. -/
theorem lux_conversion_formula :
    (∀ (m A : ℚ), read_lux A (some m) = m / 255 * A) ∧
      read_lux 1000 (some 128) = 25600 / 51 :=
  ⟨fun _ _ => rfl, by norm_num [read_lux]⟩

/-- C7: `reset` leaves the running/stopped flag unchanged, and likewise the
amplitude, sweep and interval parameters: only the readings buffer, the
dynamic canvas items and the angle cursor are touched. -/
theorem reset_preserves_running (s : RadarState) :
    (reset s).running = s.running ∧ (reset s).amplitude = s.amplitude ∧
      (reset s).sweep = s.sweep ∧ (reset s).interval = s.interval :=
  ⟨rfl, rfl, rfl, rfl⟩

/-- C8: invoking `start` while the radar is already running changes no state
and schedules no additional timer callback. -/
theorem start_noop_when_running (s : RadarState) (h : s.running = true) :
    start s = (s, false) := by
  simp [start, h]

/-- C8 witness: `start` on the running sample state. -/
theorem start_noop_when_running_witness :
    sample_state.running = true ∧ start sample_state = (sample_state, false) :=
  ⟨rfl, start_noop_when_running sample_state rfl⟩

/-- C9: the invariant "angle in [0, 359] and buffer of length 360" holds in
the initial state and is preserved by `reset` and by every `_update` tick,
for every sweep in the UI-exposed range 1–10. -/
theorem radar_invariant_preserved (s : RadarState) (frame : Option ℚ)
    (ha : s.angle < 360) (hl : s.readings.length = 360)
    (h1 : 1 ≤ s.sweep) (h10 : s.sweep ≤ 10) :
    (init_state.angle < 360 ∧ init_state.readings.length = 360) ∧
      ((reset s).angle < 360 ∧ (reset s).readings.length = 360) ∧
      ((update frame s).angle < 360 ∧ (update frame s).readings.length = 360) := by
  refine ⟨⟨by decide, List.length_replicate 360 0⟩,
    ⟨by norm_num [reset], List.length_replicate 360 0⟩, ?_, ?_⟩
  · cases hs : s.running
    · simpa [update, hs] using ha
    · simp only [update, hs, if_true]
      exact Nat.mod_lt _ (by norm_num)
  · cases hs : s.running
    · simpa [update, hs] using hl
    · simpa [update, hs, List.length_set] using hl

/-- C9 witness: the invariant for the sample state under a failing-read
tick. -/
theorem radar_invariant_preserved_witness :
    (sample_state.angle < 360 ∧ sample_state.readings.length = 360 ∧
        1 ≤ sample_state.sweep ∧ sample_state.sweep ≤ 10) ∧
      ((init_state.angle < 360 ∧ init_state.readings.length = 360) ∧
        ((reset sample_state).angle < 360 ∧
          (reset sample_state).readings.length = 360) ∧
        ((update none sample_state).angle < 360 ∧
          (update none sample_state).readings.length = 360)) :=
  ⟨by decide,
   radar_invariant_preserved sample_state none (by decide) (by decide)
     (by decide) (by decide)⟩

/-- C10: every `ler_sensor` reading on a draw in `[24, 30]` lies in
`[24, 30]` and is a multiple of one tenth; consequently every element of the
temperature buffer obtained by folding `aquisicao` steps over in-range draws
lies in `[24, 30]`. -/
theorem ler_sensor_range (u : ℚ) (us : List ℚ)
    (h24 : 24 ≤ u) (h30 : u ≤ 30)
    (hus : ∀ v ∈ us, 24 ≤ v ∧ v ≤ 30) :
    (24 ≤ ler_sensor u ∧ ler_sensor u ≤ 30) ∧
      (∃ n : ℤ, ler_sensor u = (n : ℚ) / 10) ∧
      ∀ x ∈ List.foldl aquisicao_step [] us, 24 ≤ x ∧ x ≤ 30 := by
  refine ⟨ler_sensor_mem_Icc u h24 h30, ⟨round_half_even (10 * u), rfl⟩, ?_⟩
  intro x hx
  have hfold : List.foldl aquisicao_step [] us
      = List.foldl (deque_append MAX_PONTOS) [] (us.map ler_sensor) := by
    rw [List.foldl_map]
    rfl
  rw [hfold,
    foldl_deque_eq_drop MAX_PONTOS (us.map ler_sensor) [] (by simp)] at hx
  simp only [List.nil_append] at hx
  have hx' : x ∈ us.map ler_sensor := List.drop_subset _ _ hx
  rcases List.mem_map.mp hx' with ⟨v, hv, hxv⟩
  rcases hus v hv with ⟨hv24, hv30⟩
  rw [← hxv]
  exact ler_sensor_mem_Icc v hv24 hv30

/-- C10 witness: the draw `25.325` rounds to `25.3 ∈ [24, 30]`, and the
buffer built from the draws `[24, 30]` stays within range. -/
theorem ler_sensor_range_witness :
    ((24 : ℚ) ≤ 1013 / 40 ∧ (1013 / 40 : ℚ) ≤ 30 ∧
        ∀ v ∈ ([24, 30] : List ℚ), 24 ≤ v ∧ v ≤ 30) ∧
      ((24 ≤ ler_sensor (1013 / 40) ∧ ler_sensor (1013 / 40) ≤ 30) ∧
        (∃ n : ℤ, ler_sensor (1013 / 40) = (n : ℚ) / 10) ∧
        ∀ x ∈ List.foldl aquisicao_step [] [24, 30], 24 ≤ x ∧ x ≤ 30) :=
  ⟨by norm_num,
   ler_sensor_range (1013 / 40) [24, 30] (by norm_num) (by norm_num)
     (by norm_num)⟩

end Programas
